import Mathlib

/-!
Verification development for the character_server repository.

The definitions below are a shallow embedding of the C++ sources:
  - protocol.cpp / protocol.h : the wire codec for CharacterData records,
  - session_manager.cpp / session_manager.h : accept loop, per-session
    read/dispatch/write cycle, connection counter,
  - database_manager.cpp : the MySQL-backed storage operations, modelled
    over an abstract connection whose primitive calls may fail.

Bytes are modelled as natural numbers (real buffers hold values below 256);
fixed-width integers are encoded little-endian by explicit division and
remainder, matching the memcpy-based layout of the source on the x86-64
target.  Fallible reads return Option: the C++ helpers read_from_buffer and
read_string perform no bounds check whatsoever, so a result of none below
marks exactly the points where the C++ code would read past the end of the
buffer (undefined behaviour), not a graceful decode error.
-/

namespace CharacterServer

abbrev Byte := Nat

/-- Little-endian four-byte encoding of a 32-bit value, as produced by
write_to_buffer via memcpy of a uint32_t (protocol.cpp lines 6-10);
values of 2^32 and above are truncated exactly as the C++ cast does. -/
def le32 (n : Nat) : List Byte :=
  [n % 2 ^ 8, n / 2 ^ 8 % 2 ^ 8, n / 2 ^ 16 % 2 ^ 8, n / 2 ^ 24 % 2 ^ 8]

/-- Value of the first four bytes read little-endian, as read_from_buffer
does for uint32_t (protocol.cpp lines 13-19). -/
def readLE32 : List Byte → Nat
  | b0 :: b1 :: b2 :: b3 :: _ => b0 + 2 ^ 8 * b1 + 2 ^ 16 * b2 + 2 ^ 24 * b3
  | _ => 0

/-- Reinterpret a 32-bit unsigned value as the int32_t the source stores in
CharacterData.id (two's complement). -/
def toInt32 (n : Nat) : Int :=
  if n < 2 ^ 31 then (n : Int) else (n : Int) - 2 ^ 32

/-- Four-byte little-endian two's-complement encoding of an int32_t, as
write_to_buffer produces via memcpy of the id field. -/
def encodeI32 (i : Int) : List Byte :=
  le32 (i % 2 ^ 32).toNat

/-- CharacterData record (protocol.h lines 17-23): id is an int32_t, the
three strings are byte sequences, age is a uint8_t. -/
structure CharacterData where
  id : Int
  name : List Byte
  surname : List Byte
  age : Byte
  bio : List Byte
deriving DecidableEq

namespace CharacterData

/-- CharacterData::write_string (protocol.cpp lines 21-25): a uint32 length
prefix, truncated from size_t, followed by the raw bytes. -/
def write_string (s : List Byte) : List Byte :=
  le32 s.length ++ s

/-- CharacterData::serialize (protocol.cpp lines 34-56): id, then the three
length-prefixed strings with the age byte between surname and bio. -/
def serialize (c : CharacterData) : List Byte :=
  encodeI32 c.id ++ write_string c.name ++ write_string c.surname ++
    [c.age] ++ write_string c.bio

/-- Read n bytes at offset off.  The C++ reader has no bounds check, so the
none case marks an out-of-bounds access of the source, not a handled
error. -/
def readBytes (buf : List Byte) (off n : Nat) : Option (List Byte) :=
  if off + n ≤ buf.length then some ((buf.drop off).take n) else none

/-- read_from_buffer specialised to uint32_t: four bytes little-endian,
offset advanced by four. -/
def read_u32 (buf : List Byte) (off : Nat) : Option (Nat × Nat) :=
  match readBytes buf off 4 with
  | none => none
  | some bs => some (readLE32 bs, off + 4)

/-- read_from_buffer specialised to uint8_t: one byte, offset advanced by
one. -/
def read_u8 (buf : List Byte) (off : Nat) : Option (Byte × Nat) :=
  match readBytes buf off 1 with
  | none => none
  | some bs => some (bs.headD 0, off + 1)

/-- CharacterData::read_string (protocol.cpp lines 27-32): uint32 length
prefix, then that many raw bytes, with no check of the declared length
against the remaining buffer. -/
def read_string (buf : List Byte) (off : Nat) : Option (List Byte × Nat) :=
  match read_u32 buf off with
  | none => none
  | some (len, o) =>
    match readBytes buf o len with
    | none => none
    | some s => some (s, o + len)

/-- CharacterData::deserialize (protocol.cpp lines 58-69): fields read back
in serialization order; trailing bytes after bio are ignored. -/
def deserialize (buf : List Byte) : Option CharacterData :=
  match read_u32 buf 0 with
  | none => none
  | some (idv, o1) =>
    match read_string buf o1 with
    | none => none
    | some (name, o2) =>
      match read_string buf o2 with
      | none => none
      | some (surname, o3) =>
        match read_u8 buf o3 with
        | none => none
        | some (age, o4) =>
          match read_string buf o4 with
          | none => none
          | some (bio, _) => some ⟨toInt32 idv, name, surname, age, bio⟩

/-- Body of the serialization loop of CharacterData::serializeVector
(protocol.cpp lines 76-81): per record a uint32 size field followed by the
record's own encoding. -/
def serializeElems : List CharacterData → List Byte
  | [] => []
  | c :: cs => le32 (serialize c).length ++ (serialize c ++ serializeElems cs)

/-- CharacterData::serializeVector (protocol.cpp lines 71-84): uint32 count,
then the size-prefixed element encodings. -/
def serializeVector (cs : List CharacterData) : List Byte :=
  le32 cs.length ++ serializeElems cs

/-- Loop of CharacterData::deserializeVector (protocol.cpp lines 92-98):
read a size field, slice out that many bytes, decode the slice, advance. -/
def deserializeElems (buf : List Byte) : Nat → Nat → Option (List CharacterData)
  | 0, _ => some []
  | count + 1, off =>
    match read_u32 buf off with
    | none => none
    | some (size, o) =>
      match readBytes buf o size with
      | none => none
      | some chunk =>
        match deserialize chunk with
        | none => none
        | some c =>
          match deserializeElems buf count (o + size) with
          | none => none
          | some rest => some (c :: rest)

/-- CharacterData::deserializeVector (protocol.cpp lines 86-101): uint32
count, then exactly count size-prefixed elements; bytes after the last
element are never looked at. -/
def deserializeVector (buf : List Byte) : Option (List CharacterData) :=
  match read_u32 buf 0 with
  | none => none
  | some (count, o) => deserializeElems buf count o

end CharacterData

namespace Protocol

def GET_ALL : Byte := 0x01
def ADD_CHARACTER : Byte := 0x02
def REMOVE_CHARACTER : Byte := 0x03
def GET_ONE : Byte := 0x04
def UPDATE_CHARACTER : Byte := 0x05
def RESP_SUCCESS : Byte := 0x80
def RESP_ERROR : Byte := 0x81
def MAX_CONNECTIONS : Nat := 1000
def THREAD_POOL_SIZE : Nat := 16
def MESSAGE_DELIMITER : List Byte := [0x0D, 0x0A]

end Protocol

/-! Storage collaborator (database_manager.cpp).  The MySQL client calls are
modelled by an abstract connection record whose flags say which primitive
call fails; the control flow of each DatabaseManager method over those
calls is translated directly from the source. -/

structure MySqlConn where
  queryFails : Bool
  storeResultFails : Bool
  rows : List CharacterData
  stmtInitFails : Bool
  prepareFails : Bool
  bindFails : Bool
  executeFails : Bool
  fetchRow : Option CharacterData
  insertOk : Bool
  updateOk : Bool
  deleteOk : Bool
deriving DecidableEq

/-- DatabaseManager::getAllCharacters (database_manager.cpp lines 277-304):
if mysql_query fails or mysql_store_result returns null, the accumulated
(empty) vector is returned with no error signal; otherwise the fetched
rows. -/
def getAllCharacters (db : MySqlConn) : List CharacterData :=
  if db.queryFails then []
  else if db.storeResultFails then []
  else db.rows

/-- DatabaseManager::getCharacter (database_manager.cpp lines 306-396):
every failing primitive call, and an empty fetch, yield nullopt. -/
def getCharacter (db : MySqlConn) (_id : Int) : Option CharacterData :=
  if db.stmtInitFails then none
  else if db.prepareFails then none
  else if db.bindFails then none
  else if db.executeFails then none
  else db.fetchRow

/-- DatabaseManager::addCharacter (database_manager.cpp lines 151-196):
true only when statement init, prepare, bind and execute all succeed. -/
def addCharacter (db : MySqlConn) (_c : CharacterData) : Bool :=
  !db.stmtInitFails && !db.prepareFails && !db.bindFails && db.insertOk

/-- DatabaseManager::updateCharacter (database_manager.cpp lines 198-248). -/
def updateCharacter (db : MySqlConn) (_id : Int) (_c : CharacterData) : Bool :=
  !db.stmtInitFails && !db.prepareFails && !db.bindFails && db.updateOk

/-- DatabaseManager::deleteCharacter (database_manager.cpp lines 250-275). -/
def deleteCharacter (db : MySqlConn) (_id : Int) : Bool :=
  !db.stmtInitFails && !db.prepareFails && !db.bindFails && db.deleteOk

/-! Session dispatch (session_manager.cpp).  processMessage runs on a worker
thread; the calls it makes on the session, in order, are recorded as a list
of actions.  sendResponse only initiates an asynchronous write; close shuts
the socket down immediately. -/

inductive SessionAct where
  | send (resp : List Byte)
  | closeSock
deriving DecidableEq

/-- SessionManager::Session::sendResponse framing (session_manager.cpp line
276): the delimiter is appended to the response body; these are the bytes
the initiated async_write would put on the wire. -/
def sendResponse (data : List Byte) : List Byte :=
  data ++ Protocol.MESSAGE_DELIMITER

/-- SessionManager::Session::processMessage (session_manager.cpp lines
174-266), translated case by case.  A thrown runtime_error is caught by the
catch block, which sends RESP_ERROR and closes the session.  The result is
the ordered list of sendResponse/close calls; none models the undefined
behaviour of CharacterData::deserialize reading out of bounds on a
malformed ADD_CHARACTER or UPDATE_CHARACTER body, which no handler
catches. -/
def processMessage (db : MySqlConn) (cmd : Byte) (message : List Byte) :
    Option (List SessionAct) :=
  if cmd = Protocol.GET_ALL then
    let characters := getAllCharacters db
    let response :=
      Protocol.GET_ALL ::
        (if characters.isEmpty then [] else CharacterData.serializeVector characters)
    some [SessionAct.send response]
  else if cmd = Protocol.GET_ONE then
    if message.length < 4 then
      some [SessionAct.send [Protocol.RESP_ERROR], SessionAct.closeSock]
    else
      match getCharacter db (toInt32 (readLE32 (message.take 4))) with
      | some c => some [SessionAct.send (Protocol.GET_ONE :: CharacterData.serialize c)]
      | none => some [SessionAct.send [Protocol.RESP_ERROR]]
  else if cmd = Protocol.ADD_CHARACTER then
    match CharacterData.deserialize message with
    | none => none
    | some c =>
      if addCharacter db c then some [SessionAct.send [Protocol.RESP_SUCCESS]]
      else some [SessionAct.send [Protocol.RESP_ERROR], SessionAct.closeSock]
  else if cmd = Protocol.REMOVE_CHARACTER then
    if message.length < 4 then
      some [SessionAct.send [Protocol.RESP_ERROR], SessionAct.closeSock]
    else if deleteCharacter db (toInt32 (readLE32 (message.take 4))) then
      some [SessionAct.send [Protocol.RESP_SUCCESS]]
    else
      some [SessionAct.send [Protocol.RESP_ERROR]]
  else if cmd = Protocol.UPDATE_CHARACTER then
    if message.length < 4 then
      some [SessionAct.send [Protocol.RESP_ERROR], SessionAct.closeSock]
    else
      match CharacterData.deserialize message with
      | none => none
      | some c =>
        if updateCharacter db (toInt32 (readLE32 (message.take 4))) c then
          some [SessionAct.send [Protocol.RESP_SUCCESS]]
        else
          some [SessionAct.send [Protocol.RESP_ERROR], SessionAct.closeSock]
  else
    some [SessionAct.send [Protocol.RESP_ERROR], SessionAct.closeSock]

/-- A storage connection on which every primitive call succeeds and the
store holds no rows. -/
def db0 : MySqlConn :=
  ⟨false, false, [], false, false, false, false, none, true, true, true⟩

/-- A connection whose mysql_query call fails although rows exist. -/
def dbQueryFail : MySqlConn :=
  { db0 with queryFails := true, rows := [⟨1, [65], [66], 3, []⟩] }

/-- A connection whose mysql_stmt_execute call fails. -/
def dbExecFail : MySqlConn :=
  { db0 with executeFails := true }

/-! Framing (SessionManager::Session::readBody, session_manager.cpp lines
117-172).  The completion handler searches the buffered bytes for the
first CR LF, slices out everything before it as the message, erases the
consumed bytes, posts the message to the thread pool, and re-enters
readBody while the buffer is nonempty; readBody, however, clears
m_readBuffer unconditionally at entry (line 119), so the bytes remaining
after the first frame are discarded on re-entry instead of being
extracted, and the next async_read_until waits for fresh socket data. -/

/-- Index of the first occurrence of the two-byte delimiter CR LF, as
found by std::search on the read buffer. -/
def findDelim : List Byte → Option Nat
  | a :: b :: rest =>
    if a = 13 ∧ b = 10 then some 0
    else (findDelim (b :: rest)).map (· + 1)
  | _ => none

/-- One extraction step of readBody: the bytes before the first delimiter
become the message, the bytes through the delimiter are erased. -/
def extractOne (buf : List Byte) : Option (List Byte × List Byte) :=
  match findDelim buf with
  | none => none
  | some i => some (buf.take i, buf.drop (i + 2))

/-- What the session does with the contents of m_readBuffer when one
async_read_until completes: the frames it hands to the worker pool and the
buffered bytes the clear at the next readBody entry throws away. -/
structure ReadBodyResult where
  posted : List (List Byte)
  discarded : List Byte
deriving DecidableEq

/-- The readBody completion handler applied to the bytes one
async_read_until has buffered (session_manager.cpp lines 131-171): the
first frame is sliced out, its bytes erased, and the frame posted to the
pool (line 162); if bytes remain, readBody is re-entered (lines 168-170) —
but readBody clears m_readBuffer unconditionally at entry (line 119), so
the remainder, and with it every further pipelined request delivered in
this read, is discarded rather than extracted.  In the no-delimiter branch
(lines 147-150) nothing is posted and the re-entered readBody likewise
clears whatever was buffered.  At most one frame is posted per buffered
read. -/
def readBodyPosted (buf : List Byte) : ReadBodyResult :=
  match extractOne buf with
  | none => ⟨[], buf⟩
  | some (msg, rest) => ⟨[msg], rest⟩

/-- The dispatch tasks a session posts to the shared 16-thread pool from
one buffered read, each entry pairing the index of the request that
produced it with the session actions its dispatch performs.  Because the
re-entered readBody discards the remainder of the read, this list holds at
most one task however many pipelined requests the read contained. -/
def sessionTasks (db : MySqlConn) (cmd : Byte) (buf : List Byte) :
    List (Nat × Option (List SessionAct)) :=
  ((readBodyPosted buf).posted.map (processMessage db cmd)).enum

/-- The bytes readBody has buffered when a client pipelines two GET_ALL
requests and TCP delivers them in one read: the first command byte was
already consumed by readHeader, leaving CRLF, then the second request's
command byte, then its CRLF. -/
def pipelinedBuf : List Byte := [13, 10, Protocol.GET_ALL, 13, 10]

/-! Accept loop (SessionManager::startAccept lines 13-22 and
SessionManager::handleAccept lines 30-49 of session_manager.cpp). -/

structure ManagerState where
  activeConnections : Nat
  stopping : Bool
deriving DecidableEq

/-- Outcome of one async_accept completion: success, deliberate
cancellation (operation_aborted), or any other error. -/
inductive AcceptEvent where
  | ok
  | aborted
  | err
deriving DecidableEq

/-- What one run of SessionManager::handleAccept does. -/
structure AcceptResult where
  newActive : Nat
  sessionStarted : Bool
  respondedToClient : Bool
  errorLogged : Bool
  acceptReissued : Bool
deriving DecidableEq

/-- SessionManager::handleAccept, translated branch by branch: an error is
logged unless it is operation_aborted and the handler returns; a completed
accept at the connection limit is logged and the handler returns; otherwise
the counter is incremented, the session started, and startAccept re-arms
the acceptor unless the manager is stopping.  Only the last branch calls
startAccept. -/
def handleAccept (s : ManagerState) (ev : AcceptEvent) : AcceptResult :=
  match ev with
  | .aborted => ⟨s.activeConnections, false, false, false, false⟩
  | .err => ⟨s.activeConnections, false, false, true, false⟩
  | .ok =>
    if s.activeConnections ≥ Protocol.MAX_CONNECTIONS then
      ⟨s.activeConnections, false, false, true, false⟩
    else
      ⟨s.activeConnections + 1, true, false, false, !s.stopping⟩

/-! Session close (SessionManager::Session::close, session_manager.cpp
lines 291-297) and the asynchronous write it can race with. -/

structure SessionState where
  timerArmed : Bool
  socketOpen : Bool
deriving DecidableEq

/-- Session::close paired with the manager's active-connection counter: the
timer is cancelled, the socket shut down and closed, and the atomic size_t
counter is decremented unconditionally — the class has no closed flag, so
nothing guards a second call.  size_t decrement of zero wraps. -/
def closeSession : SessionState × Nat → SessionState × Nat
  | (_, active) => (⟨false, false⟩, (active + (2 ^ 64 - 1)) % 2 ^ 64)

/-- Socket write machinery from the reactor's point of view: writes that
have been initiated by async_write but not yet performed, and the frames
actually delivered. -/
structure WriteState where
  socketOpen : Bool
  pending : List (List Byte)
  wire : List (List Byte)
deriving DecidableEq

/-- The io_context performs the initiated writes: they reach the wire only
if the socket is still open. -/
def reactorFlush (s : WriteState) : WriteState :=
  if s.socketOpen then { s with pending := [], wire := s.wire ++ s.pending }
  else { s with pending := [] }

/-- Effect of one session action on the write state, as performed by the
worker thread that runs processMessage: sendResponse appends the delimiter
and initiates an async_write; close shuts the socket down at once, without
waiting for any pending write to complete. -/
def actStep (s : WriteState) : SessionAct → WriteState
  | SessionAct.send r => { s with pending := s.pending ++ [sendResponse r] }
  | SessionAct.closeSock => { s with socketOpen := false }

/-- Run the actions a dispatch performs, in order, on the worker thread. -/
def runActs (acts : List SessionAct) (s : WriteState) : WriteState :=
  acts.foldl actStep s

/-- Write state before a dispatch runs: socket open, nothing pending. -/
def initialWriteState : WriteState := ⟨true, [], []⟩

/-- A record whose id fits int32 and whose strings each hold fewer than
2^32 bytes, so every length-prefix cast in the codec is lossless. -/
abbrev RecordBounded (r : CharacterData) : Prop :=
  -2 ^ 31 ≤ r.id ∧ r.id < 2 ^ 31 ∧ r.name.length < 2 ^ 32 ∧
    r.surname.length < 2 ^ 32 ∧ r.bio.length < 2 ^ 32

/-- A record whose name holds exactly 2^32 zero bytes: its size_t length
does not survive the uint32_t cast in write_string. -/
def bigRecord : CharacterData :=
  ⟨0, List.replicate (2 ^ 32) 0, [], 1, []⟩

/-! Byte-level reading lemmas. -/

theorem le32_length (n : Nat) : (le32 n).length = 4 := rfl

theorem le32_zero : le32 0 = List.replicate 4 0 := rfl

theorem le32_two_pow : le32 (2 ^ 32) = List.replicate 4 0 := by decide

theorem readLE32_le32 (n : Nat) : readLE32 (le32 n) = n % 2 ^ 32 := by
  simp only [le32, readLE32]
  omega

theorem toInt32_toNat_emod (i : Int) (h1 : -2 ^ 31 ≤ i) (h2 : i < 2 ^ 31) :
    toInt32 ((i % 2 ^ 32).toNat) = i := by
  unfold toInt32
  split <;> omega

theorem readBytes_spec (buf s rest : List Byte) (off : Nat)
    (hoff : off ≤ buf.length) (h : buf.drop off = s ++ rest) :
    CharacterData.readBytes buf off s.length = some s := by
  have hlen : buf.length - off = s.length + rest.length := by
    have h2 := congrArg List.length h
    simpa using h2
  unfold CharacterData.readBytes
  rw [if_pos (by omega), h, List.take_left]

theorem drop_advance (buf x rest : List Byte) (off : Nat)
    (h : buf.drop off = x ++ rest) : buf.drop (off + x.length) = rest := by
  rw [← List.drop_drop, h, List.drop_left]

theorem read_u32_spec (buf rest : List Byte) (off n : Nat)
    (h : buf.drop off = le32 n ++ rest) :
    CharacterData.read_u32 buf off = some (n % 2 ^ 32, off + 4) := by
  have hoff : off ≤ buf.length := by
    have h2 := congrArg List.length h
    simp [le32] at h2
    omega
  have hb : CharacterData.readBytes buf off 4 = some (le32 n) := by
    have h3 := readBytes_spec buf (le32 n) rest off hoff h
    simpa [le32_length] using h3
  unfold CharacterData.read_u32
  simp [hb, readLE32_le32]

theorem read_string_spec (buf s rest : List Byte) (off : Nat)
    (hlt : s.length < 2 ^ 32) (h : buf.drop off = le32 s.length ++ (s ++ rest)) :
    CharacterData.read_string buf off = some (s, off + 4 + s.length) := by
  have hu := read_u32_spec buf (s ++ rest) off s.length h
  rw [Nat.mod_eq_of_lt hlt] at hu
  have hd : buf.drop (off + 4) = s ++ rest := by
    have h3 := drop_advance buf (le32 s.length) (s ++ rest) off h
    simpa [le32_length] using h3
  have hoff2 : off + 4 ≤ buf.length := by
    have h2 := congrArg List.length h
    simp [le32_length] at h2
    omega
  have hb := readBytes_spec buf s rest (off + 4) hoff2 hd
  unfold CharacterData.read_string
  simp [hu, hb]

theorem read_u8_spec (buf rest : List Byte) (b : Byte) (off : Nat)
    (h : buf.drop off = b :: rest) :
    CharacterData.read_u8 buf off = some (b, off + 1) := by
  have hoff : off ≤ buf.length := by
    have h2 := congrArg List.length h
    simp at h2
    omega
  have hb : CharacterData.readBytes buf off 1 = some [b] := by
    have h3 := readBytes_spec buf [b] rest off hoff (by simpa using h)
    simpa using h3
  unfold CharacterData.read_u8
  simp [hb]

/-- Record round-trip as long as every length-prefix cast is lossless: the
serialized form of a bounded record decodes back to that record. -/
theorem deserialize_serialize_of_lt (r : CharacterData)
    (h1 : -2 ^ 31 ≤ r.id) (h2 : r.id < 2 ^ 31)
    (hn : r.name.length < 2 ^ 32) (hs : r.surname.length < 2 ^ 32)
    (hb : r.bio.length < 2 ^ 32) :
    CharacterData.deserialize (CharacterData.serialize r) = some r := by
  set buf := CharacterData.serialize r with hbufdef
  have d0 : buf.drop 0 = le32 ((r.id % 2 ^ 32).toNat) ++
      (le32 r.name.length ++ (r.name ++ (le32 r.surname.length ++ (r.surname ++
        (r.age :: (le32 r.bio.length ++ r.bio)))))) := by
    rw [List.drop_zero, hbufdef]
    simp only [CharacterData.serialize, CharacterData.write_string, encodeI32,
      List.append_assoc, List.singleton_append]
  have hN : (r.id % 2 ^ 32).toNat < 2 ^ 32 := by omega
  have s1 := read_u32_spec buf _ 0 ((r.id % 2 ^ 32).toNat) d0
  rw [Nat.mod_eq_of_lt hN] at s1
  have d4 : buf.drop (0 + 4) = le32 r.name.length ++ (r.name ++
      (le32 r.surname.length ++ (r.surname ++
        (r.age :: (le32 r.bio.length ++ r.bio))))) := by
    have h3 := drop_advance buf (le32 ((r.id % 2 ^ 32).toNat)) _ 0 d0
    rwa [le32_length] at h3
  have s2 := read_string_spec buf r.name _ (0 + 4) hn d4
  have d8 : buf.drop (0 + 4 + 4) = r.name ++
      (le32 r.surname.length ++ (r.surname ++
        (r.age :: (le32 r.bio.length ++ r.bio)))) := by
    have h3 := drop_advance buf (le32 r.name.length) _ (0 + 4) d4
    rwa [le32_length] at h3
  have d8b := drop_advance buf r.name _ (0 + 4 + 4) d8
  have s3 := read_string_spec buf r.surname _ (0 + 4 + 4 + r.name.length) hs d8b
  have d12 : buf.drop (0 + 4 + 4 + r.name.length + 4) = r.surname ++
      (r.age :: (le32 r.bio.length ++ r.bio)) := by
    have h3 := drop_advance buf (le32 r.surname.length) _ (0 + 4 + 4 + r.name.length) d8b
    rwa [le32_length] at h3
  have d12b := drop_advance buf r.surname _ (0 + 4 + 4 + r.name.length + 4) d12
  have s4 := read_u8_spec buf _ r.age (0 + 4 + 4 + r.name.length + 4 + r.surname.length) d12b
  have d13 : buf.drop (0 + 4 + 4 + r.name.length + 4 + r.surname.length + 1) =
      le32 r.bio.length ++ (r.bio ++ []) := by
    have hx : buf.drop (0 + 4 + 4 + r.name.length + 4 + r.surname.length) =
        [r.age] ++ (le32 r.bio.length ++ r.bio) := by simpa using d12b
    have h3 := drop_advance buf [r.age] _ _ hx
    simpa using h3
  have s5 := read_string_spec buf r.bio []
    (0 + 4 + 4 + r.name.length + 4 + r.surname.length + 1) hb d13
  simp only [CharacterData.deserialize, s1, s2, s3, s4, s5]
  rw [toInt32_toNat_emod r.id h1 h2]

/-- The element loop of deserializeVector recovers the records that
serializeElems wrote, from any offset, leaving trailing bytes alone. -/
theorem deserializeElems_spec (rs : List CharacterData) :
    ∀ (buf rest : List Byte) (off : Nat),
      (∀ r ∈ rs, RecordBounded r ∧ (CharacterData.serialize r).length < 2 ^ 32) →
      buf.drop off = CharacterData.serializeElems rs ++ rest →
      CharacterData.deserializeElems buf rs.length off = some rs := by
  induction rs with
  | nil =>
    intro buf rest off _ _
    simp [CharacterData.deserializeElems]
  | cons r rs ih =>
    intro buf rest off hsz h
    obtain ⟨⟨hb1, hb2, hb3, hb4, hb5⟩, hlen⟩ := hsz r (by simp)
    rw [CharacterData.serializeElems] at h
    simp only [List.append_assoc] at h
    have s1 := read_u32_spec buf _ off ((CharacterData.serialize r).length) h
    rw [Nat.mod_eq_of_lt hlen] at s1
    have d1 : buf.drop (off + 4) =
        CharacterData.serialize r ++ (CharacterData.serializeElems rs ++ rest) := by
      have h3 := drop_advance buf (le32 (CharacterData.serialize r).length) _ off h
      rwa [le32_length] at h3
    have hoff : off + 4 ≤ buf.length := by
      have h2 := congrArg List.length h
      simp [le32_length] at h2
      omega
    have s2 := readBytes_spec buf (CharacterData.serialize r) _ (off + 4) hoff d1
    have s3 := deserialize_serialize_of_lt r hb1 hb2 hb3 hb4 hb5
    have d2 := drop_advance buf (CharacterData.serialize r) _ (off + 4) d1
    have s4 := ih buf rest (off + 4 + (CharacterData.serialize r).length)
      (fun q hq => hsz q (by simp [hq])) d2
    simp only [List.length_cons, CharacterData.deserializeElems, s1, s2, s3, s4]

/-- List round-trip for bounded records: deserializeVector reads back
exactly what serializeVector wrote and ignores whatever follows it. -/
theorem deserializeVector_serializeVector (rs : List CharacterData) (extra : List Byte)
    (hcount : rs.length < 2 ^ 32)
    (hsz : ∀ r ∈ rs, RecordBounded r ∧ (CharacterData.serialize r).length < 2 ^ 32) :
    CharacterData.deserializeVector (CharacterData.serializeVector rs ++ extra) = some rs := by
  have h0 : (CharacterData.serializeVector rs ++ extra).drop 0 =
      le32 rs.length ++ (CharacterData.serializeElems rs ++ extra) := by
    simp [CharacterData.serializeVector, List.append_assoc]
  have s1 := read_u32_spec _ _ 0 rs.length h0
  rw [Nat.mod_eq_of_lt hcount] at s1
  have d1 : (CharacterData.serializeVector rs ++ extra).drop (0 + 4) =
      CharacterData.serializeElems rs ++ extra := by
    have h3 := drop_advance _ (le32 rs.length) _ 0 h0
    rwa [le32_length] at h3
  have s2 := deserializeElems_spec rs _ extra (0 + 4) hsz d1
  simp only [CharacterData.deserializeVector, s1, s2]

/-- Split a zero run at an index within it. -/
theorem replicate_zero_split (N k : Nat) (h : k ≤ N) :
    List.replicate N (0 : Byte) = List.replicate k 0 ++ List.replicate (N - k) 0 := by
  rw [← List.replicate_add, Nat.add_sub_cancel' h]

/-- Decoding a buffer that starts with at least 17 zero bytes yields the
all-empty record whatever follows the zeros: every length prefix in the
zero run reads as zero. -/
theorem deserialize_zero_run (N : Nat) (t : List Byte) (hN : 17 ≤ N) :
    CharacterData.deserialize (List.replicate N 0 ++ t) = some ⟨0, [], [], 0, []⟩ := by
  set buf := List.replicate N (0 : Byte) ++ t with hbufdef
  have split4 : ∀ m : Nat, 4 ≤ m →
      List.replicate m (0 : Byte) ++ t = le32 0 ++ (List.replicate (m - 4) 0 ++ t) := by
    intro m hm
    rw [le32_zero, replicate_zero_split m 4 hm, List.append_assoc]
  have d0 : buf.drop 0 = le32 0 ++ (List.replicate (N - 4) 0 ++ t) := by
    rw [List.drop_zero, hbufdef, split4 N (by omega)]
  have s1 := read_u32_spec buf _ 0 0 d0
  simp only [Nat.zero_mod, Nat.zero_add] at s1
  have d4 : buf.drop 4 = List.replicate (N - 4) 0 ++ t := by
    have h3 := drop_advance buf (le32 0) _ 0 d0
    rwa [le32_length, Nat.zero_add] at h3
  have d4s : buf.drop 4 = le32 0 ++ (([] : List Byte) ++ (List.replicate (N - 8) 0 ++ t)) := by
    rw [d4, split4 (N - 4) (by omega)]
    simp only [List.nil_append]
    congr 2
  have s2 := read_string_spec buf [] _ 4 (by norm_num) d4s
  simp only [List.length_nil, Nat.add_zero] at s2
  have d8 : buf.drop 8 = List.replicate (N - 8) 0 ++ t := by
    have h3 := drop_advance buf (le32 0) _ 4 (by simpa using d4s)
    simpa [le32_length] using h3
  have d8s : buf.drop 8 = le32 0 ++ (([] : List Byte) ++ (List.replicate (N - 12) 0 ++ t)) := by
    rw [d8, split4 (N - 8) (by omega)]
    simp only [List.nil_append]
    congr 2
  have s3 := read_string_spec buf [] _ 8 (by norm_num) d8s
  simp only [List.length_nil, Nat.add_zero] at s3
  have d12 : buf.drop 12 = List.replicate (N - 12) 0 ++ t := by
    have h3 := drop_advance buf (le32 0) _ 8 (by simpa using d8s)
    simpa [le32_length] using h3
  have d12c : buf.drop 12 = 0 :: (List.replicate (N - 13) 0 ++ t) := by
    rw [d12, show N - 12 = (N - 13) + 1 by omega, List.replicate_succ]
    rfl
  have s4 := read_u8_spec buf _ 0 12 d12c
  have d13 : buf.drop 13 = List.replicate (N - 13) 0 ++ t := by
    have hx : buf.drop 12 = [(0 : Byte)] ++ (List.replicate (N - 13) 0 ++ t) := by
      simpa using d12c
    have h3 := drop_advance buf [0] _ 12 hx
    simpa using h3
  have d13s : buf.drop 13 = le32 0 ++ (([] : List Byte) ++ (List.replicate (N - 17) 0 ++ t)) := by
    rw [d13, split4 (N - 13) (by omega)]
    simp only [List.nil_append]
    congr 2
  have s5 := read_string_spec buf [] _ 13 (by norm_num) d13s
  simp only [List.length_nil, Nat.add_zero] at s5
  have hfin : toInt32 0 = 0 := by norm_num [toInt32]
  simp only [CharacterData.deserialize, s1, s2, s3, s4, s5, hfin]

/-- One successful step of the deserializeVector element loop, stated over
variables so its uses never force large terms through the kernel. -/
theorem deserializeElems_cons_spec (buf : List Byte) (count off size : Nat)
    (chunk : List Byte) (c : CharacterData) (res : List CharacterData)
    (h1 : CharacterData.read_u32 buf off = some (size, off + 4))
    (h2 : CharacterData.readBytes buf (off + 4) size = some chunk)
    (h3 : CharacterData.deserialize chunk = some c)
    (h4 : CharacterData.deserializeElems buf count (off + 4 + size) = some res) :
    CharacterData.deserializeElems buf (count + 1) off = some (c :: res) := by
  simp only [CharacterData.deserializeElems, h1, h2, h3, h4]

/-- Top-level unfolding of deserializeVector, stated over variables for the
same reason. -/
theorem deserializeVector_spec (buf : List Byte) (count : Nat) (res : List CharacterData)
    (h1 : CharacterData.read_u32 buf 0 = some (count, 0 + 4))
    (h2 : CharacterData.deserializeElems buf count (0 + 4) = some res) :
    CharacterData.deserializeVector buf = some res := by
  simp only [CharacterData.deserializeVector, h1, h2]

/-- Merge two adjacent zero runs under a right-nested append. -/
theorem replicate_merge (a b : Nat) (Y : List Byte) :
    List.replicate a (0 : Byte) ++ (List.replicate b 0 ++ Y) =
      List.replicate (a + b) 0 ++ Y := by
  rw [← List.append_assoc, ← List.replicate_add]

/-- Closed form of the serialization of bigRecord: the truncated name
length field, like every other field before the age byte, is all zeros. -/
theorem serialize_bigRecord :
    CharacterData.serialize bigRecord =
      List.replicate (2 ^ 32 + 12) 0 ++ (1 :: List.replicate 4 0) := by
  simp only [bigRecord, CharacterData.serialize, CharacterData.write_string, encodeI32,
    Int.zero_emod, Int.toNat_zero, List.length_replicate, List.length_nil,
    List.append_assoc, List.singleton_append, List.append_nil, le32_zero, le32_two_pow]
  rw [replicate_merge, replicate_merge, replicate_merge,
    show 4 + 4 + 2 ^ 32 + 4 = 2 ^ 32 + 12 by norm_num]

theorem length_serialize_bigRecord :
    (CharacterData.serialize bigRecord).length = 2 ^ 32 + 17 := by
  rw [serialize_bigRecord, List.length_append, List.length_replicate, List.length_cons,
    List.length_replicate]

/-! Claim theorems. -/

/-- Claim C1: when two GET_ALL requests are pipelined and TCP delivers both
in one buffered read, the completion handler slices out only the first
frame (the empty body of request 1) and re-enters readBody, whose
unconditional buffer clear discards the bytes of request 2 — the whole
frame 0x01 CR LF.  Exactly one dispatch task is posted, so exactly one
response is ever written for the two requests: the second response never
reaches the wire at all, in request order or any other.  The source
comment at line 167, tcp stacks messages so read further, shows the
remainder was meant to be processed; the clear at line 119 defeats it. -/
theorem claim1_pipelined_second_request_dropped :
    (readBodyPosted pipelinedBuf).posted = [[]] ∧
    (readBodyPosted pipelinedBuf).discarded = [Protocol.GET_ALL, 13, 10] ∧
    sessionTasks db0 Protocol.GET_ALL pipelinedBuf =
      [(0, some [SessionAct.send [Protocol.GET_ALL]])] ∧
    (sessionTasks db0 Protocol.GET_ALL pipelinedBuf).length = 1 := by
  decide

/-- Claim C2: no reader of the codec validates a declared length against
the remaining buffer; on a string length prefix of 5 with no bytes left,
on a record whose name length field overruns, and on a list element size
field that overruns, the source reads past the end of the input
(undefined behaviour) instead of failing with a decode error — the none
results below mark exactly those out-of-bounds accesses. -/
theorem claim2_decode_reads_past_end :
    CharacterData.read_string [5, 0, 0, 0] 0 = none ∧
    CharacterData.deserialize [0, 0, 0, 0, 5, 0, 0, 0] = none ∧
    CharacterData.deserializeVector [1, 0, 0, 0, 10, 0, 0, 0] = none := by
  decide

/-- Claim C3: handleAccept issues no further accept after rejecting a
connection at the limit, and none after a non-cancellation accept error
either — both branches return without calling startAccept, so the accept
loop terminates instead of proceeding to the next accept. -/
theorem claim3_accept_loop_halts :
    handleAccept ⟨Protocol.MAX_CONNECTIONS, false⟩ AcceptEvent.ok =
      ⟨Protocol.MAX_CONNECTIONS, false, false, true, false⟩ ∧
    handleAccept ⟨0, false⟩ AcceptEvent.err = ⟨0, false, false, true, false⟩ := by
  decide

/-- Claim C4: Session::close decrements the active-connection counter
unconditionally on every call — the class has no closed flag — so closing
twice decrements twice (5 becomes 3, not 4), and closing at a counter of
zero wraps the size_t all the way up. -/
theorem claim4_close_double_decrements :
    closeSession (⟨true, true⟩, 5) = (⟨false, false⟩, 4) ∧
    closeSession (closeSession (⟨true, true⟩, 5)) = (⟨false, false⟩, 3) ∧
    (closeSession (⟨false, false⟩, 0)).2 = 2 ^ 64 - 1 := by
  decide

/-- Claim C5 counterexample: the record whose name is 2^32 zero bytes does
not survive the round trip — write_string truncates the length prefix to
zero, so decoding returns the all-empty record (age 0) instead. -/
theorem claim5_roundtrip_cex :
    CharacterData.deserialize (CharacterData.serialize bigRecord) ≠ some bigRecord := by
  rw [serialize_bigRecord,
    deserialize_zero_run (2 ^ 32 + 12) (1 :: List.replicate 4 0) (by norm_num)]
  intro h
  have h2 : (⟨0, [], [], 0, []⟩ : CharacterData) = bigRecord := Option.some.inj h
  have h3 := congrArg CharacterData.age h2
  exact absurd h3 (by decide)

/-- Claim C5 (amended): for every record whose id is a genuine int32 and
whose name, surname and bio each hold fewer than 2^32 bytes — including
empty strings and strings with CR LF in the middle — decoding the
encoding gives the record back. -/
theorem claim5_roundtrip_bounded (r : CharacterData)
    (h1 : -2 ^ 31 ≤ r.id) (h2 : r.id < 2 ^ 31)
    (hn : r.name.length < 2 ^ 32) (hs : r.surname.length < 2 ^ 32)
    (hb : r.bio.length < 2 ^ 32) :
    CharacterData.deserialize (CharacterData.serialize r) = some r :=
  deserialize_serialize_of_lt r h1 h2 hn hs hb

/-- Claim C5 witness: the round trip evaluated on a record with a negative
id, an empty name, and a bio containing the CR LF delimiter bytes in the
middle. -/
theorem claim5_roundtrip_bounded_witness :
    CharacterData.deserialize (CharacterData.serialize ⟨-5, [], [65], 29, [66, 13, 10, 67]⟩) =
      some ⟨-5, [], [65], 29, [66, 13, 10, 67]⟩ :=
  claim5_roundtrip_bounded ⟨-5, [], [65], 29, [66, 13, 10, 67]⟩
    (by decide) (by decide) (by decide) (by decide) (by decide)

/-- Claim C6 counterexample: against an empty store the GET_ALL dispatch
sends the bare command byte — serializeVector is skipped entirely when the
store is empty — so the body is not the command byte followed by the four
zero count bytes the claim requires. -/
theorem claim6_get_all_empty_cex :
    processMessage db0 Protocol.GET_ALL [] = some [SessionAct.send [Protocol.GET_ALL]] ∧
    [Protocol.GET_ALL] ≠ Protocol.GET_ALL :: le32 0 := by
  decide

/-- Claim C6 (amended): for every GET_ALL request dispatched against an
empty store the response body is the single command byte 0x01 with no
count field, and the frame put on the wire is 0x01 followed directly by
the CR LF delimiter. -/
theorem claim6_get_all_empty_bare_byte (db : MySqlConn) (msg : List Byte)
    (h : getAllCharacters db = []) :
    processMessage db Protocol.GET_ALL msg = some [SessionAct.send [Protocol.GET_ALL]] ∧
    sendResponse [Protocol.GET_ALL] = [Protocol.GET_ALL, 13, 10] := by
  constructor
  · simp [processMessage, h]
  · rfl

/-- Claim C6 witness: the empty-store GET_ALL dispatch evaluated on the
all-success connection with no rows. -/
theorem claim6_get_all_empty_bare_byte_witness :
    getAllCharacters db0 = [] ∧
      (processMessage db0 Protocol.GET_ALL [] = some [SessionAct.send [Protocol.GET_ALL]] ∧
        sendResponse [Protocol.GET_ALL] = [Protocol.GET_ALL, 13, 10]) :=
  ⟨by decide, claim6_get_all_empty_bare_byte db0 [] (by decide)⟩

/-- Claim C7 counterexample: a REMOVE_CHARACTER frame with a two-byte body
throws, the catch block converts it to RESP_ERROR and then closes the
session — the dispatch action list ends in a close, so the session does
not stay open. -/
theorem claim7_short_body_closes_cex :
    processMessage db0 Protocol.REMOVE_CHARACTER [0, 0] =
      some [SessionAct.send [Protocol.RESP_ERROR], SessionAct.closeSock] ∧
    SessionAct.closeSock ∈
      [SessionAct.send [Protocol.RESP_ERROR], SessionAct.closeSock] := by
  decide

/-- Claim C7 (amended): for every GET_ONE, REMOVE_CHARACTER or
UPDATE_CHARACTER request whose body is shorter than the four-byte id
field, the dispatcher responds with the single status byte RESP_ERROR and
then closes the session — the connection does not stay open. -/
theorem claim7_short_body_error_and_close (db : MySqlConn) (msg : List Byte)
    (h : msg.length < 4) :
    processMessage db Protocol.GET_ONE msg =
      some [SessionAct.send [Protocol.RESP_ERROR], SessionAct.closeSock] ∧
    processMessage db Protocol.REMOVE_CHARACTER msg =
      some [SessionAct.send [Protocol.RESP_ERROR], SessionAct.closeSock] ∧
    processMessage db Protocol.UPDATE_CHARACTER msg =
      some [SessionAct.send [Protocol.RESP_ERROR], SessionAct.closeSock] := by
  refine ⟨?_, ?_, ?_⟩ <;>
    simp [processMessage, Protocol.GET_ALL, Protocol.GET_ONE, Protocol.ADD_CHARACTER,
      Protocol.REMOVE_CHARACTER, Protocol.UPDATE_CHARACTER, h]

/-- Claim C7 witness: the short-body dispatch evaluated on a two-byte
body. -/
theorem claim7_short_body_error_and_close_witness :
    processMessage db0 Protocol.GET_ONE [0, 0] =
      some [SessionAct.send [Protocol.RESP_ERROR], SessionAct.closeSock] ∧
    processMessage db0 Protocol.REMOVE_CHARACTER [0, 0] =
      some [SessionAct.send [Protocol.RESP_ERROR], SessionAct.closeSock] ∧
    processMessage db0 Protocol.UPDATE_CHARACTER [0, 0] =
      some [SessionAct.send [Protocol.RESP_ERROR], SessionAct.closeSock] :=
  claim7_short_body_error_and_close db0 [0, 0] (by decide)

/-- Claim C8 counterexample: when mysql_query fails inside getAllCharacters
the empty vector is returned with no error signal, so the GET_ALL response
is the bare command byte 0x01 — indistinguishable from an empty store —
and not the RESP_ERROR status byte the claim requires. -/
theorem claim8_get_all_storage_error_cex :
    processMessage dbQueryFail Protocol.GET_ALL [] =
      some [SessionAct.send [Protocol.GET_ALL]] ∧
    [Protocol.GET_ALL] ≠ [Protocol.RESP_ERROR] := by
  decide

/-- Claim C8 (amended): when the storage operation fails during GET_ONE
the response is RESP_ERROR and the session stays open; when it fails
during GET_ALL the response is the bare 0x01 of an empty store, not
RESP_ERROR, and the session also stays open. -/
theorem claim8_storage_error_read_ops (dbe dbq : MySqlConn) (msg : List Byte)
    (he : dbe.executeFails = true) (hm : 4 ≤ msg.length)
    (hq : dbq.queryFails = true) :
    processMessage dbe Protocol.GET_ONE msg = some [SessionAct.send [Protocol.RESP_ERROR]] ∧
    processMessage dbq Protocol.GET_ALL msg = some [SessionAct.send [Protocol.GET_ALL]] := by
  constructor
  · have hg : getCharacter dbe (toInt32 (readLE32 (msg.take 4))) = none := by
      simp [getCharacter, he]
    have hnl : ¬ msg.length < 4 := by omega
    simp [processMessage, Protocol.GET_ALL, Protocol.GET_ONE, hnl, hg]
  · have ha : getAllCharacters dbq = [] := by
      simp [getAllCharacters, hq]
    simp [processMessage, ha]

/-- Claim C8 witness: the two read dispatches evaluated on connections
whose execute and query calls fail. -/
theorem claim8_storage_error_read_ops_witness :
    processMessage dbExecFail Protocol.GET_ONE [7, 0, 0, 0] =
      some [SessionAct.send [Protocol.RESP_ERROR]] ∧
    processMessage dbQueryFail Protocol.GET_ALL [7, 0, 0, 0] =
      some [SessionAct.send [Protocol.GET_ALL]] :=
  claim8_storage_error_read_ops dbExecFail dbQueryFail [7, 0, 0, 0]
    (by decide) (by decide) (by decide)

/-- Claim C9: on an unknown command byte the dispatch initiates the
RESP_ERROR write and calls close immediately afterwards on the same worker
thread, without waiting for the write to complete; in the execution where
the reactor performs the pending write only after that close has shut the
socket down, nothing reaches the wire — delivery of the RESP_ERROR frame
before closing is not guaranteed. -/
theorem claim9_unknown_command_close_races_write :
    processMessage db0 255 [] =
      some [SessionAct.send [Protocol.RESP_ERROR], SessionAct.closeSock] ∧
    (runActs [SessionAct.send [Protocol.RESP_ERROR], SessionAct.closeSock]
      initialWriteState).socketOpen = false ∧
    (reactorFlush (runActs [SessionAct.send [Protocol.RESP_ERROR], SessionAct.closeSock]
      initialWriteState)).wire = [] := by
  decide

/-- Claim C10 counterexample: for the singleton list holding the record
whose name is 2^32 zero bytes, the per-element size field is truncated to
17, so deserializeVector decodes only the first 17 zero bytes of the
element and returns the all-empty record instead of the original list. -/
theorem claim10_vector_roundtrip_cex :
    CharacterData.deserializeVector
        (CharacterData.serializeVector [bigRecord] ++ ([] : List Byte)) ≠
      some [bigRecord] := by
  have hB : CharacterData.serializeVector [bigRecord] ++ ([] : List Byte) =
      le32 1 ++ (le32 (2 ^ 32 + 17) ++ CharacterData.serialize bigRecord) := by
    rw [List.append_nil, CharacterData.serializeVector, CharacterData.serializeElems,
      CharacterData.serializeElems, List.append_nil, length_serialize_bigRecord,
      List.length_singleton]
  set B := le32 1 ++ (le32 (2 ^ 32 + 17) ++ CharacterData.serialize bigRecord) with hBdef
  rw [hB]
  have h0 : B.drop 0 = le32 1 ++
      (le32 (2 ^ 32 + 17) ++ CharacterData.serialize bigRecord) := List.drop_zero B
  have s1 := read_u32_spec B _ 0 1 h0
  rw [Nat.mod_eq_of_lt (by norm_num)] at s1
  have d1 : B.drop (0 + 4) = le32 (2 ^ 32 + 17) ++ CharacterData.serialize bigRecord := by
    have h3 := drop_advance B (le32 1) _ 0 h0
    rwa [le32_length] at h3
  have s2 := read_u32_spec B _ (0 + 4) (2 ^ 32 + 17) d1
  rw [show (2 ^ 32 + 17) % 2 ^ 32 = 17 by omega] at s2
  have d2 : B.drop (0 + 4 + 4) = CharacterData.serialize bigRecord := by
    have h3 := drop_advance B (le32 (2 ^ 32 + 17)) (CharacterData.serialize bigRecord)
      (0 + 4) d1
    rwa [le32_length] at h3
  have d2s : B.drop (0 + 4 + 4) = List.replicate 17 0 ++
      (List.replicate (2 ^ 32 + 12 - 17) 0 ++ (1 :: List.replicate 4 0)) := by
    rw [d2, serialize_bigRecord, replicate_zero_split (2 ^ 32 + 12) 17 (by norm_num),
      List.append_assoc]
  have hoff : 0 + 4 + 4 ≤ B.length := by
    have h2 : B.length = 4 + (4 + (2 ^ 32 + 17)) := by
      rw [hBdef, List.length_append, List.length_append, le32_length, le32_length,
        length_serialize_bigRecord]
    omega
  have s3 : CharacterData.readBytes B (0 + 4 + 4) 17 = some (List.replicate 17 0) := by
    have h3 := readBytes_spec B (List.replicate 17 0) _ (0 + 4 + 4) hoff d2s
    rwa [List.length_replicate] at h3
  have s4 : CharacterData.deserialize (List.replicate 17 0) = some ⟨0, [], [], 0, []⟩ := by
    have h3 := deserialize_zero_run 17 [] (by norm_num)
    rwa [List.append_nil] at h3
  have s5 : CharacterData.deserializeElems B 0 (0 + 4 + 4 + 17) = some [] := rfl
  have h1f : CharacterData.deserializeElems B 1 (0 + 4) =
      some [(⟨0, [], [], 0, []⟩ : CharacterData)] := by
    rw [show (1 : Nat) = 0 + 1 from rfl]
    exact deserializeElems_cons_spec B 0 (0 + 4) 17 (List.replicate 17 0) _ [] s2 s3 s4 s5
  have hrun : CharacterData.deserializeVector B =
      some [(⟨0, [], [], 0, []⟩ : CharacterData)] :=
    deserializeVector_spec B 1 _ s1 h1f
  rw [hrun]
  intro h
  have h3 := Option.some.inj h
  injection h3 with hh _
  have h4 := congrArg CharacterData.age hh
  exact absurd h4 (by decide)

/-- Claim C10 (amended): for every list of records whose count and
per-record serialized size and string lengths all fit in 32 bits, and for
every byte sequence appended after the encoding, deserializeVector reads
back exactly the original list, ignoring the trailing bytes. -/
theorem claim10_vector_roundtrip_bounded (rs : List CharacterData) (extra : List Byte)
    (hcount : rs.length < 2 ^ 32)
    (hsz : ∀ r ∈ rs, RecordBounded r ∧ (CharacterData.serialize r).length < 2 ^ 32) :
    CharacterData.deserializeVector (CharacterData.serializeVector rs ++ extra) = some rs :=
  deserializeVector_serializeVector rs extra hcount hsz

/-- Claim C10 witness: the list round trip evaluated on a one-record list
with two junk bytes appended. -/
theorem claim10_vector_roundtrip_bounded_witness :
    CharacterData.deserializeVector
        (CharacterData.serializeVector [⟨1, [72], [73], 2, [74]⟩] ++ [9, 9]) =
      some [⟨1, [72], [73], 2, [74]⟩] :=
  claim10_vector_roundtrip_bounded [⟨1, [72], [73], 2, [74]⟩] [9, 9]
    (by decide) (by decide)

end CharacterServer
